import Mathlib

/-!
# Shallow embedding of the LCV optimization core (api.py, `run_lcv_optimization`)

The embedded code is the core of `run_lcv_optimization` in `src/api.py`
(lines 97-175): the VRP heuristic loop, the availability tracker, the
6-stage simulation and the result formatting.

Modelling conventions:
* Python `datetime` values are integers counting seconds (proleptic
  Gregorian, epoch 1970-01-01 00:00:00); `timedelta(minutes=k)` is `60*k`.
* `random.uniform(0, 5)` and `random.randint(a, b)` draw from the process
  PRNG stream; we model the stream as oracle functions indexed by a draw
  counter that is threaded through the computation in program order.
  The jittered comparison value is kept as a rational (`ℚ`).
* The initial `earliest_stochastic_completion_time = datetime.max` together
  with `best_lcv = None` is modelled by an `Option` accumulator: `none`
  means no candidate examined yet (for in-range datetimes the first
  candidate always compares below `datetime.max`).
* Python's `if best_lcv:` tests truthiness, which for string identifiers
  is `best_lcv is not None and best_lcv != ""`; the embedding keeps that
  test as written in the source.
-/

namespace LCV

/-- A cleaned request record as it reaches the core loop
(one row of `requests_to_process_sorted`): identifier, historical route id,
creation timestamp (seconds), historical distance (km) and historical
duration (minutes, still a float here; the loop truncates it). -/
structure Request where
  request_id : String
  route_id : String
  create_date : ℤ
  distance : ℚ
  duration : ℚ
  deriving Repr, DecidableEq

/-- Oracle view of the `random` module draws consumed by the core:
`uni n` is the value of the `n`-th draw when it is `random.uniform(0, 5)`
(minutes, rational), `rint n a b` the value of the `n`-th draw when it is
`random.randint(a, b)` (inclusive integer bounds). -/
structure RandSrc where
  uni : ℕ → ℚ
  rint : ℕ → ℤ → ℤ → ℤ

/-- Python `int()` applied to the duration float: truncation toward zero. -/
def intTrunc (q : ℚ) : ℤ := q.num.tdiv q.den

/-- One entry of `final_schedule` (api.py lines 123-128). -/
structure Assignment where
  request : Request
  assigned_lcv : String
  start_time : ℤ
  completion_time : ℤ
  deriving Repr, DecidableEq

/-- The per-vehicle candidate data computed in the inner loop
(api.py lines 111-114): jittered score, vehicle id, candidate start,
candidate (non-jittered) completion. -/
structure Cand where
  score : ℚ
  lcv : String
  start_time : ℤ
  completion_time : ℤ
  deriving Repr, DecidableEq

/-- The candidate computed for vehicle `v` when the uniform-draw counter is
at `n` (api.py lines 111-114): `current_lcv_start_time`,
`current_lcv_completion_time` and `stochastic_completion_time`. -/
def candOf (src : RandSrc) (avail : String → ℤ) (req : Request) (n : ℕ)
    (v : String) : Cand :=
  let s : ℤ := max (avail v) req.create_date
  let c : ℤ := s + 60 * intTrunc req.duration
  ⟨(c : ℚ) + 60 * src.uni n, v, s, c⟩

/-- The inner loop of the heuristic (api.py lines 110-120): iterate the
vehicles, drawing one uniform jitter per vehicle, keeping the candidate
with the strictly smallest jittered score. Returns the advanced draw
counter and the best candidate (`none` only when no vehicle was examined). -/
def chooseLCV (src : RandSrc) (avail : String → ℤ) (req : Request) :
    List String → ℕ → Option Cand → ℕ × Option Cand
  | [], n, best => (n, best)
  | v :: vs, n, best =>
      let e := candOf src avail req n v
      chooseLCV src avail req vs (n + 1)
        (match best with
         | none => some e
         | some b => if e.score < b.score then some e else some b)

/-- The candidates of the inner loop in iteration order, with the uniform
draw counter starting at `n` (analysis view of `chooseLCV`). -/
def candList (src : RandSrc) (avail : String → ℤ) (req : Request) :
    List String → ℕ → List Cand
  | [], _ => []
  | v :: vs, n => candOf src avail req n v :: candList src avail req vs (n + 1)

/-- Accumulator view of the strict-less-than selection in the inner loop. -/
def foldBest : List Cand → Option Cand → Option Cand
  | [], best => best
  | e :: l, best =>
      foldBest l
        (match best with
         | none => some e
         | some b => if e.score < b.score then some e else some b)

/-- Processing of a single request (api.py lines 104-129): run the inner
loop, then — under Python's truthiness test `if best_lcv:` — record the
assignment and overwrite the winning vehicle's tracked availability with
the non-jittered completion time. Returns the updated tracker, the
recorded assignment (if any) and the advanced draw counter. -/
def processOne (src : RandSrc) (lcvs : List String) (avail : String → ℤ)
    (req : Request) (n : ℕ) : (String → ℤ) × Option Assignment × ℕ :=
  match chooseLCV src avail req lcvs n none with
  | (n', none) => (avail, none, n')
  | (n', some e) =>
      if e.lcv = "" then (avail, none, n')
      else
        ((fun x => if x = e.lcv then e.completion_time else avail x),
         some ⟨req, e.lcv, e.start_time, e.completion_time⟩, n')

/-- The outer heuristic loop (api.py lines 104-129): fold `processOne`
over the sorted requests, collecting `final_schedule` in order and
threading the tracker and the draw counter. -/
def assignAll (src : RandSrc) (lcvs : List String) :
    List Request → (String → ℤ) → ℕ → List Assignment × (String → ℤ) × ℕ
  | [], avail, n => ([], avail, n)
  | req :: reqs, avail, n =>
      match processOne src lcvs avail req n with
      | (avail', none, n') => assignAll src lcvs reqs avail' n'
      | (avail', some a, n') =>
          let r := assignAll src lcvs reqs avail' n'
          (a :: r.1, r.2)

/-- The 6-stage simulation record, at the timestamp level
(api.py lines 155-160). -/
structure Timeline where
  request_id : String
  lcv_id : String
  stage1 : ℤ
  stage2 : ℤ
  stage3 : ℤ
  stage4 : ℤ
  stage5 : ℤ
  stage6 : ℤ
  deriving Repr, DecidableEq

/-- The 6-stage simulation of one assignment (api.py lines 155-160):
four `random.randint` draws (bounds 4..6, 28..32, 4..6, 28..32) and the
truncated historical duration, chained from `start_time`. -/
def simulateOne (src : RandSrc) (a : Assignment) (n : ℕ) : Timeline × ℕ :=
  let d : ℤ := 60 * intTrunc a.request.duration
  let s1 := a.start_time
  let s2 := s1 + 60 * src.rint n 4 6
  let s3 := s2 + 60 * src.rint (n + 1) 28 32
  let s4 := s3 + d
  let s5 := s4 + 60 * src.rint (n + 2) 4 6
  let s6 := s5 + 60 * src.rint (n + 3) 28 32
  (⟨a.request.request_id, a.assigned_lcv, s1, s2, s3, s4, s5, s6⟩, n + 4)

/-- The simulation loop over `final_schedule` (api.py lines 137-173),
threading the draw counter. Formatting consumes no randomness, so the
draw order is exactly that of the source loop. -/
def simulateAll (src : RandSrc) : List Assignment → ℕ → List Timeline × ℕ
  | [], n => ([], n)
  | a :: rest, n =>
      let t := simulateOne src a n
      let r := simulateAll src rest t.2
      (t.1 :: r.1, r.2)

/-- The decimal digit character for `k % 10`. -/
def digitChar (k : ℕ) : Char := Char.ofNat (48 + k % 10)

/-- Two-digit zero-padded rendering (`%02d`); faithful for `k < 100`,
which covers every month/day/hour/minute/second field. -/
def pad2 (k : ℕ) : List Char := [digitChar (k / 10), digitChar k]

/-- Four-digit zero-padded rendering (`%04d` as used by `%Y`); faithful
for `k ≤ 9999`, the Python `datetime` year range. -/
def pad4 (k : ℕ) : List Char :=
  [digitChar (k / 1000), digitChar (k / 100), digitChar (k / 10), digitChar k]

/-- Unpadded decimal rendering of a natural number. -/
def natChars (k : ℕ) : List Char :=
  if k = 0 then ['0'] else ((Nat.digits 10 k).reverse.map digitChar)

/-- Gregorian civil date (year, month, day) from a count of days since
1970-01-01, by the standard era-based algorithm. -/
def civilFromDays (z0 : ℤ) : ℤ × ℕ × ℕ :=
  let z := z0 + 719468
  let era : ℤ := z.fdiv 146097
  let doe : ℕ := (z - era * 146097).toNat
  let yoe : ℕ := (doe - doe / 1460 + doe / 36524 - doe / 146096) / 365
  let doy : ℕ := doe - (365 * yoe + yoe / 4 - yoe / 100)
  let mp : ℕ := (5 * doy + 2) / 153
  let d : ℕ := doy - (153 * mp + 2) / 5 + 1
  let m : ℕ := if mp < 10 then mp + 3 else mp - 9
  let y : ℤ := (yoe : ℤ) + era * 400 + (if m ≤ 2 then 1 else 0)
  (y, m, d)

/-- `strftime('%Y-%m-%d %H:%M:%S')` on a timestamp in seconds. -/
def fmtTimestamp (t : ℤ) : List Char :=
  let days := t.fdiv 86400
  let sod : ℕ := (t.fmod 86400).toNat
  let c := civilFromDays days
  pad4 c.1.toNat ++ '-' :: pad2 c.2.1 ++ '-' :: pad2 c.2.2 ++
    ' ' :: pad2 (sod / 3600) ++ ':' :: pad2 (sod % 3600 / 60) ++
    ':' :: pad2 (sod % 60)

/-- Model of Python `f-string` `:.2f` formatting on the rational image of
the float: sign, integer part, and exactly two fractional digits (the
model rounds half away from zero; the claims below depend only on the
shape of the output). -/
def format2 (q : ℚ) : List Char :=
  let n : ℕ := (Int.floor (|q| * 100 + 1 / 2)).toNat
  (if q < 0 then ['-'] else []) ++ natChars (n / 100) ++ '.' :: pad2 (n % 100)

/-- One formatted entry of `results['optimal_schedule']`
(api.py lines 144-152). -/
structure ScheduleEntry where
  request_id : String
  assigned_lcv_id : String
  route_id : String
  distance_str : String
  duration_str : String
  start_time : String
  completion_time : String
  deriving Repr, DecidableEq

/-- One formatted entry of `results['simulation_timeline']`
(api.py lines 162-173). -/
structure TimelineEntry where
  request_id : String
  lcv_id : String
  stage1 : String
  stage2 : String
  stage3 : String
  stage4 : String
  stage5 : String
  stage6 : String
  deriving Repr, DecidableEq

/-- Formatting of one schedule entry (api.py lines 144-152). -/
def formatAssignment (a : Assignment) : ScheduleEntry :=
  ⟨a.request.request_id, a.assigned_lcv, a.request.route_id,
   String.mk (format2 a.request.distance), String.mk (format2 a.request.duration),
   String.mk (fmtTimestamp a.start_time), String.mk (fmtTimestamp a.completion_time)⟩

/-- Formatting of one timeline entry (api.py lines 162-173). -/
def fmtTimeline (t : Timeline) : TimelineEntry :=
  ⟨t.request_id, t.lcv_id,
   String.mk (fmtTimestamp t.stage1), String.mk (fmtTimestamp t.stage2),
   String.mk (fmtTimestamp t.stage3), String.mk (fmtTimestamp t.stage4),
   String.mk (fmtTimestamp t.stage5), String.mk (fmtTimestamp t.stage6)⟩

/-- The `results` dictionary (api.py lines 132-135). -/
structure Results where
  optimal_schedule : List ScheduleEntry
  simulation_timeline : List TimelineEntry
  deriving Repr, DecidableEq

/-- `all_lcvs = sorted(df['lcv_id'].unique().tolist())` (api.py line 100):
de-duplicate, then sort ascending. -/
def sortLCVs (ids : List String) : List String :=
  List.insertionSort (fun a b => a ≤ b) ids.dedup

/-- The core of `run_lcv_optimization` (api.py lines 97-175), from the
sorted request list and the raw vehicle-id column onwards. `dayStart` is
`datetime.combine(start_date, datetime.min.time())`, the midnight
baseline every tracker slot is initialized to (line 101). -/
def run_lcv_optimization (src : RandSrc) (dayStart : ℤ) (reqs : List Request)
    (lcvIds : List String) : Results :=
  let all_lcvs := sortLCVs lcvIds
  let r := assignAll src all_lcvs reqs (fun _ => dayStart) 0
  let tls := simulateAll src r.1 r.2.2
  ⟨r.1.map formatAssignment, tls.1.map fmtTimeline⟩

/-! ## Basic facts about the selection loop -/

lemma chooseLCV_eq (src : RandSrc) (avail : String → ℤ) (req : Request) :
    ∀ (vs : List String) (n : ℕ) (best : Option Cand),
      chooseLCV src avail req vs n best =
        (n + vs.length, foldBest (candList src avail req vs n) best) := by
  intro vs
  induction vs with
  | nil => intro n best; simp [chooseLCV, candList, foldBest]
  | cons v vs ih =>
      intro n best
      simp only [chooseLCV, candList, foldBest]
      rw [ih]
      refine Prod.ext ?_ rfl
      simp [List.length_cons]
      omega

lemma foldBest_some_spec (l : List Cand) : ∀ b : Cand,
    (foldBest l (some b) = some b ∧ ∀ f ∈ l, b.score ≤ f.score) ∨
    (∃ l₁ r l₂, l = l₁ ++ r :: l₂ ∧ foldBest l (some b) = some r ∧
      r.score < b.score ∧ (∀ f ∈ l₁, r.score < f.score) ∧
      (∀ f ∈ l₂, r.score ≤ f.score)) := by
  induction l with
  | nil => intro b; exact Or.inl ⟨rfl, by simp⟩
  | cons e l ih =>
      intro b
      have hstep : foldBest (e :: l) (some b) =
          foldBest l (if e.score < b.score then some e else some b) := rfl
      by_cases h : e.score < b.score
      · rw [hstep, if_pos h]
        rcases ih e with ⟨hf, hall⟩ | ⟨l₁, r, l₂, hl, hf, hlt, h1, h2⟩
        · exact Or.inr ⟨[], e, l, by simp, hf, h, by simp, hall⟩
        · refine Or.inr ⟨e :: l₁, r, l₂, by rw [hl]; rfl, hf, lt_trans hlt h, ?_, h2⟩
          intro f hf'
          rcases List.mem_cons.mp hf' with rfl | h''
          · exact hlt
          · exact h1 f h''
      · rw [hstep, if_neg h]
        have hbe : b.score ≤ e.score := le_of_not_lt h
        rcases ih b with ⟨hf, hall⟩ | ⟨l₁, r, l₂, hl, hf, hlt, h1, h2⟩
        · refine Or.inl ⟨hf, ?_⟩
          intro f hf'
          rcases List.mem_cons.mp hf' with rfl | h''
          · exact hbe
          · exact hall f h''
        · refine Or.inr ⟨e :: l₁, r, l₂, by rw [hl]; rfl, hf, hlt, ?_, h2⟩
          intro f hf'
          rcases List.mem_cons.mp hf' with rfl | h''
          · exact lt_of_lt_of_le hlt hbe
          · exact h1 f h''

lemma foldBest_none_split (l : List Cand) (hne : l ≠ []) :
    ∃ l₁ r l₂, l = l₁ ++ r :: l₂ ∧ foldBest l none = some r ∧
      (∀ f ∈ l₁, r.score < f.score) ∧ (∀ f ∈ l₂, r.score ≤ f.score) := by
  cases l with
  | nil => exact absurd rfl hne
  | cons e l =>
      have hstep : foldBest (e :: l) none = foldBest l (some e) := rfl
      rcases foldBest_some_spec l e with ⟨hf, hall⟩ | ⟨l₁, r, l₂, hl, hf, hlt, h1, h2⟩
      · exact ⟨[], e, l, rfl, by rw [hstep]; exact hf, by simp, hall⟩
      · refine ⟨e :: l₁, r, l₂, by rw [hl]; rfl, by rw [hstep]; exact hf, ?_, h2⟩
        intro f hf'
        rcases List.mem_cons.mp hf' with rfl | h''
        · exact hlt
        · exact h1 f h''

lemma candList_ne_nil (src : RandSrc) (avail : String → ℤ) (req : Request)
    (vs : List String) (n : ℕ) (hne : vs ≠ []) :
    candList src avail req vs n ≠ [] := by
  cases vs with
  | nil => exact absurd rfl hne
  | cons v vs => simp [candList]

lemma candList_mem_shape (src : RandSrc) (avail : String → ℤ) (req : Request) :
    ∀ (vs : List String) (n : ℕ) (e : Cand), e ∈ candList src avail req vs n →
      e.lcv ∈ vs ∧ e.start_time = max (avail e.lcv) req.create_date ∧
      e.completion_time = e.start_time + 60 * intTrunc req.duration := by
  intro vs
  induction vs with
  | nil => intro n e h; simp [candList] at h
  | cons v vs ih =>
      intro n e h
      rcases List.mem_cons.mp h with rfl | h'
      · exact ⟨List.mem_cons_self _ _, rfl, rfl⟩
      · rcases ih (n + 1) e h' with ⟨h1, h2, h3⟩
        exact ⟨List.mem_cons_of_mem _ h1, h2, h3⟩

lemma foldBest_none_mem (l : List Cand) (e : Cand) (h : foldBest l none = some e) :
    e ∈ l := by
  cases hl : l with
  | nil => subst hl; exact absurd h (by simp [foldBest])
  | cons x xs =>
      subst hl
      obtain ⟨l₁, r, l₂, hsplit, hf, _, _⟩ := foldBest_none_split (x :: xs) (by simp)
      rw [hf] at h
      obtain rfl : r = e := Option.some.inj h
      rw [hsplit]
      exact List.mem_append.mpr (Or.inr (List.mem_cons_self _ _))

lemma chooseLCV_some_mem (src : RandSrc) (avail : String → ℤ) (req : Request)
    (vs : List String) (n : ℕ) (e : Cand)
    (h : (chooseLCV src avail req vs n none).2 = some e) :
    e ∈ candList src avail req vs n := by
  rw [chooseLCV_eq] at h
  exact foldBest_none_mem _ _ h

/-! ## Claim C1 -/

/-- The candidate list of the inner loop splits around the returned winner:
every earlier candidate has a strictly larger jittered score (an exact tie
is never overtaken, the comparison being strict) and every later candidate
has a larger-or-equal one; a recorded assignment carries the winner's
vehicle, start and non-jittered completion. -/
def selectsFirstArgmin (src : RandSrc) (avail : String → ℤ) (req : Request)
    (lcvs : List String) (n : ℕ) : Prop :=
  ∃ l₁ e l₂, candList src avail req lcvs n = l₁ ++ e :: l₂ ∧
    (chooseLCV src avail req lcvs n none).2 = some e ∧
    (∀ f ∈ l₁, e.score < f.score) ∧ (∀ f ∈ l₂, e.score ≤ f.score) ∧
    ∀ a : Assignment, (processOne src lcvs avail req n).2.1 = some a →
      a.assigned_lcv = e.lcv ∧ a.start_time = e.start_time ∧
      a.completion_time = e.completion_time

/-- Claim C1: with a non-empty fleet the inner loop selects a vehicle whose
jittered score `scored_completion` is minimal over all vehicles, and on an
exact tie the vehicle examined first wins (strict less-than comparison);
the vehicles are examined in ascending identifier order, `all_lcvs` being
sorted. -/
theorem claim1_jittered_argmin (src : RandSrc) (avail : String → ℤ)
    (req : Request) (lcvs : List String) (n : ℕ) (ids : List String)
    (hne : lcvs ≠ []) :
    selectsFirstArgmin src avail req lcvs n ∧
      List.Sorted (fun a b => a ≤ b) (sortLCVs ids) := by
  constructor
  · obtain ⟨l₁, e, l₂, hl, hf, h1, h2⟩ :=
      foldBest_none_split _ (candList_ne_nil src avail req lcvs n hne)
    have hch : chooseLCV src avail req lcvs n none = (n + lcvs.length, some e) := by
      rw [chooseLCV_eq, hf]
    refine ⟨l₁, e, l₂, hl, by rw [hch], h1, h2, ?_⟩
    intro a ha
    rw [processOne, hch] at ha
    by_cases he : e.lcv = ""
    · simp [he] at ha
    · simp only [he, if_neg, ite_false] at ha
      obtain rfl : (⟨req, e.lcv, e.start_time, e.completion_time⟩ : Assignment) = a :=
        Option.some.inj ha
      exact ⟨rfl, rfl, rfl⟩
  · exact List.sorted_insertionSort _ _

/-! ## Characterization of one processing step -/

lemma processOne_cases (src : RandSrc) (lcvs : List String) (avail : String → ℤ)
    (req : Request) (n : ℕ) :
    ((processOne src lcvs avail req n).2.1 = none ∧
      (processOne src lcvs avail req n).1 = avail) ∨
    (∃ e : Cand, (chooseLCV src avail req lcvs n none).2 = some e ∧ e.lcv ≠ "" ∧
      (processOne src lcvs avail req n).2.1 =
        some ⟨req, e.lcv, e.start_time, e.completion_time⟩ ∧
      (processOne src lcvs avail req n).1 =
        fun x => if x = e.lcv then e.completion_time else avail x) := by
  rcases h : chooseLCV src avail req lcvs n none with ⟨m, ob⟩
  cases ob with
  | none => exact Or.inl (by simp [processOne, h])
  | some e =>
      by_cases he : e.lcv = ""
      · exact Or.inl (by simp [processOne, h, he])
      · exact Or.inr ⟨e, by simp [h], he, by simp [processOne, h, he], by simp [processOne, h, he]⟩


/-- Python `int()` of a non-negative rational is non-negative. -/
lemma intTrunc_nonneg {q : ℚ} (h : 0 ≤ q) : 0 ≤ intTrunc q :=
  Int.tdiv_nonneg (Rat.num_nonneg.mpr h) (Int.ofNat_nonneg _)

/-! ## Claim C2 -/

/-- A recorded assignment's fields as functions of the tracker state at
selection time: start at the max of availability and creation time,
completion exactly the truncated duration later, and the tracker slot
overwritten with that same non-jittered completion. -/
def recordedConsistent (src : RandSrc) (lcvs : List String) (avail : String → ℤ)
    (req : Request) (n : ℕ) (a : Assignment) : Prop :=
  a.request = req ∧
  a.start_time = max (avail a.assigned_lcv) req.create_date ∧
  a.completion_time = a.start_time + 60 * intTrunc req.duration ∧
  (processOne src lcvs avail req n).1 a.assigned_lcv = a.completion_time

/-- Claim C2: every recorded assignment starts at
`max(availability at selection time, creation time)` and completes exactly
`int(duration)` minutes later; the selection jitter appears in none of the
recorded start, completion or tracker values. -/
theorem claim2_recorded_values (src : RandSrc) (lcvs : List String)
    (avail : String → ℤ) (req : Request) (n : ℕ) (a : Assignment)
    (h : (processOne src lcvs avail req n).2.1 = some a) :
    recordedConsistent src lcvs avail req n a := by
  rcases processOne_cases src lcvs avail req n with ⟨hn, _⟩ | ⟨e, hce, hne, hsome, havail⟩
  · rw [hn] at h; exact absurd h (by simp)
  · rw [hsome] at h
    obtain rfl : (⟨req, e.lcv, e.start_time, e.completion_time⟩ : Assignment) = a :=
      Option.some.inj h
    obtain ⟨_, hs, hc⟩ :=
      candList_mem_shape src avail req lcvs n e (chooseLCV_some_mem src avail req lcvs n e hce)
    exact ⟨rfl, hs, by rw [hc, hs], by rw [havail]; simp⟩

/-! ## Claim C10 -/

/-- Claim C10: one processing step touches at most the assigned vehicle's
tracker slot; with no recorded assignment the tracker is unchanged. -/
theorem claim10_tracker_frame (src : RandSrc) (lcvs : List String)
    (avail : String → ℤ) (req : Request) (n : ℕ) :
    ((processOne src lcvs avail req n).2.1 = none →
      ∀ v, (processOne src lcvs avail req n).1 v = avail v) ∧
    ∀ a : Assignment, (processOne src lcvs avail req n).2.1 = some a →
      (∀ v, v ≠ a.assigned_lcv → (processOne src lcvs avail req n).1 v = avail v) ∧
      (processOne src lcvs avail req n).1 a.assigned_lcv = a.completion_time := by
  rcases processOne_cases src lcvs avail req n with ⟨hn, ha⟩ | ⟨e, hce, hne, hsome, havail⟩
  · constructor
    · intro _ v; rw [ha]
    · intro a hsome; rw [hn] at hsome; exact absurd hsome (by simp)
  · constructor
    · intro hnone; rw [hsome] at hnone; exact absurd hnone (by simp)
    · intro a ha
      rw [hsome] at ha
      obtain rfl : (⟨req, e.lcv, e.start_time, e.completion_time⟩ : Assignment) = a :=
        Option.some.inj ha
      refine ⟨?_, by rw [havail]; simp⟩
      intro v hv
      rw [havail]
      simp only [Assignment.mk.injEq] at hv ⊢
      exact if_neg hv

/-! ## Claim C3 -/

/-- The completion time of the last assignment in `asgs` routed to vehicle
`v`, or `base` when `v` received none. -/
def lastCompletion (v : String) (asgs : List Assignment) (base : ℤ) : ℤ :=
  match (asgs.filter fun a => a.assigned_lcv = v).getLast? with
  | some a => a.completion_time
  | none => base

lemma lastCompletion_cons (v : String) (a : Assignment) (asgs : List Assignment)
    (base : ℤ) :
    lastCompletion v (a :: asgs) base =
      lastCompletion v asgs (if a.assigned_lcv = v then a.completion_time else base) := by
  by_cases h : a.assigned_lcv = v
  · unfold lastCompletion
    rw [List.filter_cons_of_pos (by simp [h]), List.getLast?_cons]
    cases hl : (asgs.filter fun x => x.assigned_lcv = v).getLast? with
    | none => simp [hl, h]
    | some b => simp [hl]
  · unfold lastCompletion
    rw [List.filter_cons_of_neg (by simp [h])]
    simp [h]

lemma assignAll_tracker (src : RandSrc) (lcvs : List String) :
    ∀ (reqs : List Request) (avail : String → ℤ) (n : ℕ) (v : String),
      (assignAll src lcvs reqs avail n).2.1 v =
        lastCompletion v (assignAll src lcvs reqs avail n).1 (avail v) := by
  intro reqs
  induction reqs with
  | nil => intro avail n v; simp [assignAll, lastCompletion]
  | cons req reqs ih =>
      intro avail n v
      rcases hp : processOne src lcvs avail req n with ⟨avail', ob, n'⟩
      rcases processOne_cases src lcvs avail req n with ⟨hn, ha⟩ | ⟨e, hce, hne, hsome, havail⟩
      · rw [hp] at hn ha
        obtain rfl : ob = none := hn
        have ha2 : avail' = avail := ha
        simp only [assignAll, hp]
        rw [ih avail' n' v, ha2]
      · rw [hp] at hsome havail
        obtain rfl : ob = some ⟨req, e.lcv, e.start_time, e.completion_time⟩ := hsome
        obtain rfl : avail' = fun x => if x = e.lcv then e.completion_time else avail x :=
          havail
        simp only [assignAll, hp]
        rw [lastCompletion_cons, ih]
        by_cases hv : v = e.lcv
        · simp [hv]
        · have hv3 : ¬e.lcv = v := fun h => hv h.symm
          simp [hv, hv3]

/-- For every request in the run, one processing step never decreases any
vehicle's tracked availability (given a non-negative duration). -/
def trackerStepMono (src : RandSrc) (lcvs : List String) (reqs : List Request) : Prop :=
  ∀ req ∈ reqs, ∀ (avail : String → ℤ) (n : ℕ) (v : String),
    avail v ≤ (processOne src lcvs avail req n).1 v

/-- At the end of the run each vehicle's tracked availability is the
completion time of the last assignment routed to it, or the midnight
baseline if it received none. -/
def trackerFinal (src : RandSrc) (lcvs : List String) (reqs : List Request)
    (d0 : ℤ) : Prop :=
  ∀ v, (assignAll src lcvs reqs (fun _ => d0) 0).2.1 v =
    lastCompletion v (assignAll src lcvs reqs (fun _ => d0) 0).1 d0

/-- Claim C3: with non-negative durations the tracked availability of every
vehicle is monotonically non-decreasing across the run, and the final
tracker value of each vehicle is the completion time of the last assignment
routed to it (the midnight baseline if it received none). -/
theorem claim3_tracker_monotone_final (src : RandSrc) (lcvs : List String)
    (reqs : List Request) (d0 : ℤ) (hdur : ∀ r ∈ reqs, 0 ≤ r.duration) :
    trackerStepMono src lcvs reqs ∧ trackerFinal src lcvs reqs d0 := by
  constructor
  · intro req hreq avail n v
    rcases processOne_cases src lcvs avail req n with ⟨_, ha⟩ | ⟨e, hce, _, _, havail⟩
    · rw [ha]
    · rw [havail]
      show avail v ≤ if v = e.lcv then e.completion_time else avail v
      by_cases hv : v = e.lcv
      · rw [if_pos hv]
        obtain ⟨_, hs, hc⟩ := candList_mem_shape src avail req lcvs n e
          (chooseLCV_some_mem src avail req lcvs n e hce)
        rw [hc, hs, hv]
        calc avail e.lcv ≤ max (avail e.lcv) req.create_date := le_max_left _ _
          _ ≤ max (avail e.lcv) req.create_date + 60 * intTrunc req.duration :=
            le_add_of_nonneg_right
              (mul_nonneg (by norm_num) (intTrunc_nonneg (hdur req hreq)))
      · rw [if_neg hv]
  · intro v
    exact assignAll_tracker src lcvs reqs (fun _ => d0) 0 v

/-! ## Run-level helpers -/

lemma run_eq (src : RandSrc) (d0 : ℤ) (reqs : List Request) (ids : List String) :
    run_lcv_optimization src d0 reqs ids =
      ⟨(assignAll src (sortLCVs ids) reqs (fun _ => d0) 0).1.map formatAssignment,
       (simulateAll src (assignAll src (sortLCVs ids) reqs (fun _ => d0) 0).1
         (assignAll src (sortLCVs ids) reqs (fun _ => d0) 0).2.2).1.map fmtTimeline⟩ := rfl

lemma processOne_nil_lcvs (src : RandSrc) (avail : String → ℤ) (req : Request)
    (n : ℕ) : processOne src [] avail req n = (avail, none, n) := rfl

lemma assignAll_nil_lcvs (src : RandSrc) :
    ∀ (reqs : List Request) (avail : String → ℤ) (n : ℕ),
      assignAll src [] reqs avail n = ([], avail, n) := by
  intro reqs
  induction reqs with
  | nil => intro avail n; rfl
  | cons req reqs ih =>
      intro avail n
      simp only [assignAll, processOne_nil_lcvs]
      exact ih avail n

lemma processOne_total (src : RandSrc) (lcvs : List String) (avail : String → ℤ)
    (req : Request) (n : ℕ) (hne : lcvs ≠ []) (hno : "" ∉ lcvs) :
    ∃ e : Cand, (chooseLCV src avail req lcvs n none).2 = some e ∧
      (processOne src lcvs avail req n).2.1 =
        some ⟨req, e.lcv, e.start_time, e.completion_time⟩ := by
  obtain ⟨l₁, e, l₂, hl, hf, _, _⟩ :=
    foldBest_none_split _ (candList_ne_nil src avail req lcvs n hne)
  have hch : chooseLCV src avail req lcvs n none = (n + lcvs.length, some e) := by
    rw [chooseLCV_eq, hf]
  have hmem : e.lcv ∈ lcvs :=
    (candList_mem_shape src avail req lcvs n e
      (chooseLCV_some_mem src avail req lcvs n e (by rw [hch]))).1
  have hlcv : e.lcv ≠ "" := fun h => hno (h ▸ hmem)
  exact ⟨e, by rw [hch], by simp [processOne, hch, hlcv]⟩

lemma assignAll_complete (src : RandSrc) (lcvs : List String)
    (hne : lcvs ≠ []) (hno : "" ∉ lcvs) :
    ∀ (reqs : List Request) (avail : String → ℤ) (n : ℕ),
      ((assignAll src lcvs reqs avail n).1).map (fun a => a.request) = reqs := by
  intro reqs
  induction reqs with
  | nil => intro avail n; rfl
  | cons req reqs ih =>
      intro avail n
      obtain ⟨e, _, hsome⟩ := processOne_total src lcvs avail req n hne hno
      rcases hp : processOne src lcvs avail req n with ⟨avail', ob, n'⟩
      rw [hp] at hsome
      obtain rfl : ob = some ⟨req, e.lcv, e.start_time, e.completion_time⟩ := hsome
      simp only [assignAll, hp, List.map_cons]
      rw [ih avail' n']

lemma simulateAll_length (src : RandSrc) :
    ∀ (asgs : List Assignment) (n : ℕ),
      (simulateAll src asgs n).1.length = asgs.length := by
  intro asgs
  induction asgs with
  | nil => intro n; rfl
  | cons a rest ih =>
      intro n
      simp only [simulateAll, List.length_cons]
      rw [ih]

/-! ## Claim C5 (corrected: Python truthiness of `if best_lcv:`) -/

/-- The constant random source used for concrete evaluations: every
`uniform(0,5)` draw is `0`, every `randint(a,b)` draw is `a`. -/
def srcZero : RandSrc := ⟨fun _ => 0, fun _ lo _ => lo⟩

/-- A concrete request: created at the epoch midnight, 12 km, 20 minutes. -/
def reqA : Request := ⟨"R1", "RT7", 0, 12, 20⟩

/-- Counterexample to claim C5 as stated: with the non-empty fleet `[""]`
(one vehicle whose identifier is the empty string) the single request is
silently absent from both output arrays, because `if best_lcv:` tests
Python truthiness and the empty string is falsy. -/
theorem claim5_counterexample :
    ([""] : List String) ≠ [] ∧
    (run_lcv_optimization srcZero 0 [reqA] [""]).optimal_schedule = [] ∧
    (run_lcv_optimization srcZero 0 [reqA] [""]).simulation_timeline = [] := by
  refine ⟨by decide, ?_, ?_⟩ <;> rfl

/-- Every request appears exactly once, in processing order, in both
output arrays. -/
def everyRequestScheduled (src : RandSrc) (d0 : ℤ) (reqs : List Request)
    (ids : List String) : Prop :=
  (run_lcv_optimization src d0 reqs ids).optimal_schedule.map (fun s => s.request_id) =
    reqs.map (fun r => r.request_id) ∧
  (run_lcv_optimization src d0 reqs ids).simulation_timeline.length = reqs.length

/-- Claim C5, amended: a request is silently absent from the output when
the fleet is empty — and also when the winning vehicle's identifier is
falsy (see `claim5_counterexample`); whenever the fleet is non-empty and
no vehicle identifier is the empty string, every processed request yields
exactly one schedule entry and one timeline entry. -/
theorem claim5_amended_empty_fleet_skips (src : RandSrc) (d0 : ℤ)
    (reqs : List Request) (ids : List String) :
    (run_lcv_optimization src d0 reqs [] = ⟨[], []⟩) ∧
    (ids ≠ [] → "" ∉ ids → everyRequestScheduled src d0 reqs ids) := by
  constructor
  · rw [run_eq]
    have h1 : sortLCVs ([] : List String) = [] := rfl
    rw [h1, assignAll_nil_lcvs]
    rfl
  · intro hne hno
    have hLne : sortLCVs ids ≠ [] := by
      intro h
      have hlen : (sortLCVs ids).length = ids.dedup.length :=
        List.length_insertionSort _ _
      rw [h] at hlen
      have : ids.dedup = [] := List.length_eq_zero.mp hlen.symm
      exact hne ((List.dedup_eq_nil ids).mp this)
    have hLno : "" ∉ sortLCVs ids := by
      intro h
      exact hno (List.mem_dedup.mp ((List.perm_insertionSort _ _).mem_iff.mp h))
    have hcomp := assignAll_complete src (sortLCVs ids) hLne hLno reqs (fun _ => d0) 0
    have hlen : (assignAll src (sortLCVs ids) reqs (fun _ => d0) 0).1.length =
        reqs.length := by
      have := congrArg List.length hcomp
      simpa using this
    constructor
    · rw [run_eq]
      show ((assignAll src (sortLCVs ids) reqs (fun _ => d0) 0).1.map
        formatAssignment).map (fun s => s.request_id) = _
      rw [List.map_map]
      have hfun : ((fun s : ScheduleEntry => s.request_id) ∘ formatAssignment) =
          fun a : Assignment => a.request.request_id := rfl
      rw [hfun]
      have : (assignAll src (sortLCVs ids) reqs (fun _ => d0) 0).1.map
          (fun a : Assignment => a.request.request_id) =
          ((assignAll src (sortLCVs ids) reqs (fun _ => d0) 0).1.map
            (fun a : Assignment => a.request)).map (fun r => r.request_id) := by
        rw [List.map_map]; rfl
      rw [this, hcomp]
    · rw [run_eq]
      show ((simulateAll src _ _).1.map fmtTimeline).length = reqs.length
      rw [List.length_map, simulateAll_length]
      exact hlen

/-! ## Claim C4 -/

/-- The stage-gap specification of one simulated timeline relative to its
assignment: the first stage is the start time, the four random gaps are
whole minutes within their inclusive `randint` bounds, the fourth gap is
exactly the truncated historical duration, and (for a non-negative
duration) the six timestamps are non-decreasing. -/
def stageSpec (a : Assignment) (t : Timeline) : Prop :=
  t.stage1 = a.start_time ∧
  (∃ k, t.stage2 - t.stage1 = 60 * k ∧ 4 ≤ k ∧ k ≤ 6) ∧
  (∃ k, t.stage3 - t.stage2 = 60 * k ∧ 28 ≤ k ∧ k ≤ 32) ∧
  t.stage4 - t.stage3 = 60 * intTrunc a.request.duration ∧
  (∃ k, t.stage5 - t.stage4 = 60 * k ∧ 4 ≤ k ∧ k ≤ 6) ∧
  (∃ k, t.stage6 - t.stage5 = 60 * k ∧ 28 ≤ k ∧ k ≤ 32) ∧
  (0 ≤ a.request.duration →
    t.stage1 ≤ t.stage2 ∧ t.stage2 ≤ t.stage3 ∧ t.stage3 ≤ t.stage4 ∧
    t.stage4 ≤ t.stage5 ∧ t.stage5 ≤ t.stage6)

/-- Claim C4: whatever in-range values the `randint` draws take, the six
stage timestamps of an emitted timeline satisfy the gap specification. -/
theorem claim4_timeline_gaps (src : RandSrc) (a : Assignment) (n : ℕ)
    (hint : ∀ (m : ℕ) (lo hi : ℤ), lo ≤ hi →
      lo ≤ src.rint m lo hi ∧ src.rint m lo hi ≤ hi) :
    stageSpec a (simulateOne src a n).1 := by
  have h1 := hint n 4 6 (by norm_num)
  have h2 := hint (n + 1) 28 32 (by norm_num)
  have h3 := hint (n + 2) 4 6 (by norm_num)
  have h4 := hint (n + 3) 28 32 (by norm_num)
  refine ⟨rfl, ⟨src.rint n 4 6, by simp [simulateOne], h1.1, h1.2⟩,
    ⟨src.rint (n + 1) 28 32, by simp [simulateOne], h2.1, h2.2⟩,
    by simp [simulateOne],
    ⟨src.rint (n + 2) 4 6, by simp [simulateOne], h3.1, h3.2⟩,
    ⟨src.rint (n + 3) 28 32, by simp [simulateOne], h4.1, h4.2⟩, ?_⟩
  intro hd
  have ht : (0 : ℤ) ≤ intTrunc a.request.duration := intTrunc_nonneg hd
  simp only [simulateOne]
  obtain ⟨h1a, h1b⟩ := h1
  obtain ⟨h2a, h2b⟩ := h2
  obtain ⟨h3a, h3b⟩ := h3
  obtain ⟨h4a, h4b⟩ := h4
  refine ⟨by omega, by omega, by omega, by omega, by omega⟩

/-! ## Claim C9 -/

/-- Index-wise alignment of one schedule entry and one timeline entry:
same request id, same vehicle id, and the timeline's first stage equals the
schedule entry's start time. -/
def alignSpec (e : ScheduleEntry) (t : TimelineEntry) : Prop :=
  t.request_id = e.request_id ∧ t.lcv_id = e.assigned_lcv_id ∧
  t.stage1 = e.start_time

lemma simulateAll_align (src : RandSrc) :
    ∀ (asgs : List Assignment) (n : ℕ),
      List.Forall₂
        (fun (a : Assignment) (t : Timeline) =>
          t.request_id = a.request.request_id ∧ t.lcv_id = a.assigned_lcv ∧
          t.stage1 = a.start_time)
        asgs (simulateAll src asgs n).1 := by
  intro asgs
  induction asgs with
  | nil => intro n; exact List.Forall₂.nil
  | cons a rest ih =>
      intro n
      exact List.Forall₂.cons ⟨rfl, rfl, rfl⟩ (ih _)

/-- Claim C9: the two output arrays have the same length and are aligned
index by index — same request id, same vehicle id, and the timeline's
first stage timestamp equals the schedule entry's start time. -/
theorem claim9_outputs_aligned (src : RandSrc) (d0 : ℤ) (reqs : List Request)
    (ids : List String) :
    (run_lcv_optimization src d0 reqs ids).optimal_schedule.length =
      (run_lcv_optimization src d0 reqs ids).simulation_timeline.length ∧
    List.Forall₂ alignSpec
      (run_lcv_optimization src d0 reqs ids).optimal_schedule
      (run_lcv_optimization src d0 reqs ids).simulation_timeline := by
  have halign :
      List.Forall₂ alignSpec
        (run_lcv_optimization src d0 reqs ids).optimal_schedule
        (run_lcv_optimization src d0 reqs ids).simulation_timeline := by
    rw [run_eq]
    rw [List.forall₂_map_left_iff, List.forall₂_map_right_iff]
    refine (simulateAll_align src _ _).imp ?_
    intro a t ⟨h1, h2, h3⟩
    exact ⟨h1, h2, by rw [fmtTimeline, formatAssignment]; simp [h3]⟩
  exact ⟨halign.length_eq, halign⟩

/-! ## Claim C7 -/

/-- Claim C7: the core computation is a pure function of the injected
random source, the scheduling-day baseline, the request list and the fleet
ids — two runs on identical inputs and identical random state produce
identical output structures. -/
theorem claim7_deterministic (src₁ src₂ : RandSrc) (d₁ d₂ : ℤ)
    (reqs₁ reqs₂ : List Request) (ids₁ ids₂ : List String)
    (hsrc : src₁ = src₂) (hd : d₁ = d₂) (hreqs : reqs₁ = reqs₂)
    (hids : ids₁ = ids₂) :
    run_lcv_optimization src₁ d₁ reqs₁ ids₁ =
      run_lcv_optimization src₂ d₂ reqs₂ ids₂ := by
  rw [hsrc, hd, hreqs, hids]

/-! ## Claim C8 -/

lemma ofNat_digit_isDigit : ∀ r : ℕ, r < 10 → (Char.ofNat (48 + r)).isDigit = true := by
  intro r hr
  interval_cases r <;> rfl

lemma digitChar_isDigit (k : ℕ) : (digitChar k).isDigit = true :=
  ofNat_digit_isDigit (k % 10) (Nat.mod_lt _ (by norm_num))

/-- The string ends in a dot followed by exactly two digits. -/
def twoDecimalStr (s : String) : Prop :=
  ∃ pre a b, s.data = pre ++ ['.', a, b] ∧ a.isDigit = true ∧ b.isDigit = true

lemma format2_twoDecimal (q : ℚ) : twoDecimalStr (String.mk (format2 q)) := by
  refine ⟨_, _, _, rfl, digitChar_isDigit _, digitChar_isDigit _⟩

/-- The string is exactly of the zero-padded 24-hour shape
`YYYY-MM-DD HH:MM:SS`: 19 characters, digits in every field position and
the fixed separators in between (no timezone suffix). -/
def tsFormatStr (s : String) : Prop :=
  ∃ y1 y2 y3 y4 m1 m2 d1 d2 h1 h2 n1 n2 s1 s2 : Char,
    s.data = [y1, y2, y3, y4, '-', m1, m2, '-', d1, d2, ' ',
      h1, h2, ':', n1, n2, ':', s1, s2] ∧
    ∀ c ∈ [y1, y2, y3, y4, m1, m2, d1, d2, h1, h2, n1, n2, s1, s2],
      c.isDigit = true

lemma fmtTimestamp_shape (t : ℤ) : tsFormatStr (String.mk (fmtTimestamp t)) := by
  refine ⟨_, _, _, _, _, _, _, _, _, _, _, _, _, _, rfl, ?_⟩
  intro c hc
  fin_cases hc <;> exact digitChar_isDigit _

/-- Formatting contract of one schedule entry: two-decimal distance and
duration, full-shape start and completion timestamps. -/
def schedFormatOK (e : ScheduleEntry) : Prop :=
  twoDecimalStr e.distance_str ∧ twoDecimalStr e.duration_str ∧
  tsFormatStr e.start_time ∧ tsFormatStr e.completion_time

/-- Formatting contract of one timeline entry: all six stage timestamps in
the full timestamp shape. -/
def timelineFormatOK (t : TimelineEntry) : Prop :=
  tsFormatStr t.stage1 ∧ tsFormatStr t.stage2 ∧ tsFormatStr t.stage3 ∧
  tsFormatStr t.stage4 ∧ tsFormatStr t.stage5 ∧ tsFormatStr t.stage6

/-- Claim C8: every emitted schedule entry renders distance and duration
with exactly two decimal places, and every timestamp in both arrays is a
zero-padded 24-hour `YYYY-MM-DD HH:MM:SS` string with no timezone. -/
theorem claim8_output_rendering (src : RandSrc) (d0 : ℤ) (reqs : List Request)
    (ids : List String) :
    (run_lcv_optimization src d0 reqs ids).optimal_schedule.Forall schedFormatOK ∧
    (run_lcv_optimization src d0 reqs ids).simulation_timeline.Forall
      timelineFormatOK := by
  rw [run_eq]
  constructor
  · rw [List.forall_iff_forall_mem]
    intro e he
    obtain ⟨a, _, rfl⟩ := List.mem_map.mp he
    exact ⟨format2_twoDecimal _, format2_twoDecimal _,
      fmtTimestamp_shape _, fmtTimestamp_shape _⟩
  · rw [List.forall_iff_forall_mem]
    intro e he
    obtain ⟨t, _, rfl⟩ := List.mem_map.mp he
    exact ⟨fmtTimestamp_shape _, fmtTimestamp_shape _, fmtTimestamp_shape _,
      fmtTimestamp_shape _, fmtTimestamp_shape _, fmtTimestamp_shape _⟩

/-! ## Concrete witnesses -/

/-- The all-idle tracker: every vehicle free at the epoch midnight. -/
def availZero : String → ℤ := fun _ => 0

/-- The assignment produced for `reqA` on the one-vehicle fleet `["V1"]`
with tracker `availZero`: start at creation time `0`, completion
`20` minutes (= 1200 seconds) later. -/
def asgA : Assignment := ⟨reqA, "V1", 0, 1200⟩

theorem claim1_witness :
    (["V1"] : List String) ≠ [] ∧
    (selectsFirstArgmin srcZero availZero reqA ["V1"] 0 ∧
      List.Sorted (fun a b => a ≤ b) (sortLCVs ["V1"])) :=
  ⟨by decide,
   claim1_jittered_argmin srcZero availZero reqA ["V1"] 0 ["V1"] (by decide)⟩

theorem claim2_witness :
    (processOne srcZero ["V1"] availZero reqA 0).2.1 = some asgA ∧
    recordedConsistent srcZero ["V1"] availZero reqA 0 asgA :=
  ⟨by decide,
   claim2_recorded_values srcZero ["V1"] availZero reqA 0 asgA (by decide)⟩

theorem claim3_witness :
    (∀ r ∈ [reqA], (0 : ℚ) ≤ r.duration) ∧
    (trackerStepMono srcZero ["V1"] [reqA] ∧ trackerFinal srcZero ["V1"] [reqA] 0) :=
  ⟨by decide,
   claim3_tracker_monotone_final srcZero ["V1"] [reqA] 0 (by decide)⟩

theorem claim4_witness :
    (∀ (m : ℕ) (lo hi : ℤ), lo ≤ hi →
      lo ≤ srcZero.rint m lo hi ∧ srcZero.rint m lo hi ≤ hi) ∧
    stageSpec asgA (simulateOne srcZero asgA 0).1 :=
  ⟨fun _ lo _ h => ⟨le_refl lo, h⟩,
   claim4_timeline_gaps srcZero asgA 0 (fun _ lo _ h => ⟨le_refl lo, h⟩)⟩

theorem claim5_witness :
    ((["V1"] : List String) ≠ [] ∧ "" ∉ (["V1"] : List String)) ∧
    (run_lcv_optimization srcZero 0 [reqA] [] = ⟨[], []⟩ ∧
      everyRequestScheduled srcZero 0 [reqA] ["V1"]) :=
  ⟨⟨by decide, by decide⟩,
   ⟨(claim5_amended_empty_fleet_skips srcZero 0 [reqA] ["V1"]).1,
    (claim5_amended_empty_fleet_skips srcZero 0 [reqA] ["V1"]).2
      (by decide) (by decide)⟩⟩

theorem claim7_witness :
    run_lcv_optimization srcZero 0 [reqA] ["V1"] =
      run_lcv_optimization srcZero 0 [reqA] ["V1"] :=
  claim7_deterministic srcZero srcZero 0 0 [reqA] [reqA] ["V1"] ["V1"]
    rfl rfl rfl rfl

theorem claim10_witness :
    (∀ v, v ≠ asgA.assigned_lcv →
      (processOne srcZero ["V1"] availZero reqA 0).1 v = availZero v) ∧
    (processOne srcZero ["V1"] availZero reqA 0).1 asgA.assigned_lcv =
      asgA.completion_time :=
  (claim10_tracker_frame srcZero ["V1"] availZero reqA 0).2 asgA (by decide)

end LCV
